import Mathlib

/-!
Shallow embedding of the tabular-data engine of `pkg/platform/datamanagement`
(`dataframe.go`, error types from the internal errors package).

Modelling conventions:
* Go slices of strings are `List String`; a `Record` is a row of string cells.
* Go `int` indices that may be negative are `Int`; ordinals produced by
  `range` loops are `Nat`.
* A Go function value that may be `nil` is an `Option`.
* A Go panic (out-of-range slice index, call through a `nil` function value)
  is `Option.none` on the result type; an error returned as a value is
  `Except.error`.  `Option (Except E A)` therefore reads: `none` = panic,
  `some (.error e)` = error return, `some (.ok a)` = success.
* The external spreadsheet reader (`grate`) is out of scope per the spec; a
  source file is modelled as the list of rows of its first sheet, each row
  being the list of string cells the reader yields.  I/O errors of the
  reader are not modelled.
* `strconv.ParseFloat/ParseInt/ParseUint` are Go standard library
  collaborators; they are abstracted as a `Parsers` bundle so theorems
  quantify over them, and Go `float64` is an abstract type `F`.
* The Go standard library string helpers the engine calls —
  `strings.ToLower`, `strings.EqualFold`, `strings.Contains` and
  `strings.Split` with the `","` pattern, and the space-stripping
  `strings.ReplaceAll` — are external collaborators; they are modelled as
  structural functions over the character list (exact for the ASCII data the
  engine handles).  `slices.Compare l r != 0` is modelled as `l ≠ r`, which
  is equivalent.
-/

namespace Boiler

/-- One column of a dataframe: a (already normalized) name bound to an
ordinal position, as in `type Column struct { name string; idx int }`. -/
structure Column where
  name : String
  idx : Nat
  deriving Repr, DecidableEq

/-- A raw row: `type Record []string`. -/
abbrev Record := List String

/-- The dataframe: `Columns`, `Rows` and the stored cleaner (normalizer)
function, which is `nil`-able in Go, hence an `Option` here.  The unused
private `cleaned` flag of the Go struct is omitted (it is never read or
written). -/
structure Dataframe where
  Columns : List Column
  Rows : List Record
  CleanerFunc : Option (Record → Record)

/-- The typed errors the engine returns (internal errors package plus the
`errors.New` values of `dataframe.go`), collapsed into one inductive. -/
inductive DfError where
  | headerMismatch (original mismatch : List String)
  | headerInterpret (provided found : List String)
  | columnsNotFound (available required : List String)
  | badRowIdx (row : Int)
  | badRow (recordLen headerLen : Nat)
  | incompatibleLength (host cand : Nat)
  | incompatibleAt (idx : Nat)
  deriving Repr, DecidableEq

/-- `Header()`: the column names in stored order. -/
def Dataframe.Header (d : Dataframe) : List String :=
  d.Columns.map (fun c => c.name)

/-- Model of ASCII lowercasing of one character: map `A`..`Z` to
`a`..`z`. -/
def lowerChar (c : Char) : Char :=
  if 65 ≤ c.toNat ∧ c.toNat ≤ 90 then Char.ofNat (c.toNat + 32) else c

/-- Model of `strings.ToLower`. -/
def lowerStr (s : String) : String := String.mk (s.data.map lowerChar)

/-- Model of `strings.EqualFold`: case-insensitive equality. -/
def eqFold (a b : String) : Bool := lowerStr a == lowerStr b

/-- Model of `strings.Contains` for the single-character pattern `","` the
engine uses. -/
def strContains (s : String) (c : Char) : Bool := s.data.contains c

/-- Model of `strings.Split` with a single-character separator, on the
character list. -/
def splitCharsOn (sep : Char) : List Char → List (List Char)
  | [] => [[]]
  | c :: cs =>
    match splitCharsOn sep cs with
    | [] => [[]]
    | g :: gs => if c == sep then [] :: g :: gs else (c :: g) :: gs

/-- Model of `strings.Split(s, ",")`. -/
def splitComma (s : String) : List String := (splitCharsOn ',' s.data).map String.mk

/-- Name normalization used by both column-finalization options — model of
`strings.ToLower(strings.ReplaceAll(str, " ", ""))`: drop every space, then
lowercase. -/
def normalizeName (s : String) : String :=
  String.mk ((s.data.filter (fun c => !(c == ' '))).map lowerChar)

/-- A functional option `DataframeOpt`: mutates the dataframe or returns an
error (`none` = the option panicked). -/
abbrev DataframeOpt := Dataframe → Option (Except DfError Dataframe)

/-- `withRecordsFromData`: split the buffer into records on the record
separator, each record into cells on the value separator, pass each record
through the cleaner when one is present (`nil`-checked in this function),
and append every resulting record — even an empty one — to `Rows`. -/
def withRecordsFromData (b newLine valueSep : String) (d : Dataframe) :
    Except DfError Dataframe :=
  let records := b.splitOn newLine
  let newRows := records.map (fun r =>
    let dfRecord := r.splitOn valueSep
    match d.CleanerFunc with
    | some f => f dfRecord
    | none => dfRecord)
  .ok { d with Rows := d.Rows ++ newRows }

/-- The scan a non-first file goes through before its data rows are read
(`for data.Next() { ... break }` in `recordsFromFiles`): advance past rows
whose first cell is empty; at the first row with a non-empty first cell,
when a header has been established, clean the row (splitting its first cell
on `","` when it contains a comma, as the code does for csv-in-excel data)
and fail with a header mismatch when the cleaned row is non-empty and
differs from the established header; otherwise consume that row and stop.
Returns the rows left for the data loop; `none` models the panic of
`data.Strings()[0]` on a row with no cells. -/
def skipHeaderScan (clean : Record → Record) (head : Option (List String)) :
    List (List String) → Option (Except DfError (List (List String)))
  | [] => some (.ok [])
  | r :: rest =>
    match r.head? with
    | none => none
    | some c0 =>
      if c0.length < 1 then skipHeaderScan clean head rest
      else
        match head with
        | none => some (.ok rest)
        | some h =>
          let record := if strContains c0 ',' then clean (splitComma c0) else clean r
          if record.length > 0 ∧ record ≠ h then
            some (.error (.headerMismatch h record))
          else some (.ok rest)

/-- The data loop of `recordsFromFiles` for one file: clean each row
(splitting the first cell on `","` when it contains a comma, else cleaning
the whole row), append it when the cleaned row is non-empty, and remember
the first cleaned row containing a cell equal (case-insensitively) to
`"date"` — cleaned once more — as the established header when none exists
yet.  `none` models the panic of `r[0]` on a row with no cells. -/
def ingestRows (clean : Record → Record) :
    List (List String) → List Record → Option (List String) →
    Option (List Record × Option (List String))
  | [], rows, head => some (rows, head)
  | r :: rest, rows, head =>
    match r.head? with
    | none => none
    | some c0 =>
      let cr := if strContains c0 ',' then clean (splitComma c0) else clean r
      let rows' := if cr.length > 0 then rows ++ [cr] else rows
      let head' :=
        if cr.any (fun e => eqFold e "date") && head.isNone then some (clean cr)
        else head
      ingestRows clean rest rows' head'

/-- Processing of one file inside `recordsFromFiles`: every file after the
first runs the header scan before its data loop. -/
def processFile (clean : Record → Record) (isFirst : Bool)
    (fileRows : List (List String)) (rows : List Record)
    (head : Option (List String)) :
    Option (Except DfError (List Record × Option (List String))) :=
  if isFirst then
    match ingestRows clean fileRows rows head with
    | none => none
    | some st => some (.ok st)
  else
    match skipHeaderScan clean head fileRows with
    | none => none
    | some (.error e) => some (.error e)
    | some (.ok rest) =>
      match ingestRows clean rest rows head with
      | none => none
      | some st => some (.ok st)

/-- The `for idx, fp := range filePaths` loop of `recordsFromFiles`,
threading the accumulated rows and the established header. -/
def recordsFromFilesLoop (clean : Record → Record) :
    List (List (List String)) → Bool → List Record → Option (List String) →
    Option (Except DfError (List Record × Option (List String)))
  | [], _, rows, head => some (.ok (rows, head))
  | f :: fs, isFirst, rows, head =>
    match processFile clean isFirst f rows head with
    | none => none
    | some (.error e) => some (.error e)
    | some (.ok (rows', head')) => recordsFromFilesLoop clean fs false rows' head'

/-- `recordsFromFiles` as a functional option.  The cleaner stored on the
dataframe is called on every row, so a `nil` cleaner is modelled as a panic
(its only in-repo caller, `NewDataframeFromFiles`, always presets one). -/
def recordsFromFiles (files : List (List (List String))) : DataframeOpt := fun d =>
  match d.CleanerFunc with
  | none => none
  | some clean =>
    match recordsFromFilesLoop clean files true d.Rows none with
    | none => none
    | some (.error e) => some (.error e)
    | some (.ok (rows, _establishedHead)) => some (.ok { d with Rows := rows })

/-- `WithProvidedColumns`: fail with a header-interpret (shape) error when
the provided name list's length differs from the width of `rows[0]`
(`d.Rows[0]` panics when there are no rows), otherwise append a column per
name — normalized — with its position as ordinal.  No row is removed. -/
def WithProvidedColumns (h : List String) : DataframeOpt := fun d =>
  match d.Rows.head? with
  | none => none
  | some r0 =>
    if h.length ≠ r0.length then some (.error (.headerInterpret h r0))
    else
      some (.ok { d with
        Columns := d.Columns ++ h.enum.map (fun p => { name := normalizeName p.2, idx := p.1 }) })

/-- `WithInterpretedColumns`: append a column per cell of `rows[0]` —
normalized, ordinal by position — then remove that first row (`d.Rows[0]`
panics when there are no rows). -/
def WithInterpretedColumns : DataframeOpt := fun d =>
  match d.Rows with
  | [] => none
  | r0 :: rest =>
    some (.ok { d with
      Columns := d.Columns ++ r0.enum.map (fun p => { name := normalizeName p.2, idx := p.1 }),
      Rows := rest })

/-- `Drop`: sort the given indices, delete the half-open index range
`[first, last)` from `Rows` via `slices.Delete`, then keep only non-empty
rows.  `i[0]` panics on an empty index list; `slices.Delete` panics when
the bounds are negative, inverted, or past the row count. -/
def Dataframe.Drop (d : Dataframe) (i : List Int) : Option Dataframe :=
  match i.mergeSort with
  | [] => none
  | lo :: rest =>
    let hi := (lo :: rest).getLast (List.cons_ne_nil _ _)
    if 0 ≤ lo ∧ lo ≤ hi ∧ hi ≤ (d.Rows.length : Int) then
      some { d with
        Rows := (d.Rows.take lo.toNat ++ d.Rows.drop hi.toNat).filter
          (fun r => !r.isEmpty) }
    else none

/-- The column-selection loop of `Get`: walk the dataframe's columns in
order; for each column whose name matches (case-insensitively) one of the
requested names, read the row cell at the column's stored ordinal (`r[c.idx]`
panics when the row is shorter) and keep the column — unchanged, stored
ordinal included. -/
def projectCols (r : Record) (req : List String) :
    List Column → Option (List String × List Column)
  | [] => some ([], [])
  | c :: cs =>
    if req.any (fun e => eqFold e c.name) then
      match r.get? c.idx with
      | none => none
      | some cell =>
        match projectCols r req cs with
        | none => none
        | some (vals, cols) => some (cell :: vals, c :: cols)
    else projectCols r req cs

/-- `Get`: read the addressed row (`d.Rows[row]` panics out of range).  With
no requested columns, return a fresh one-row dataframe sharing the columns
(its cleaner is the zero value, i.e. `nil`).  With requested columns,
project via `projectCols` and fail with a columns-not-found error when the
number of matched columns differs from the number requested. -/
def Dataframe.Get (d : Dataframe) (row : Int) (columns : List String) :
    Option (Except DfError Dataframe) :=
  if 0 ≤ row then
    match d.Rows.get? row.toNat with
    | none => none
    | some r =>
      if columns.isEmpty then
        some (.ok { Columns := d.Columns, Rows := [r], CleanerFunc := none })
      else
        match projectCols r columns d.Columns with
        | none => none
        | some (vals, cols) =>
          if cols.length ≠ columns.length then
            some (.error (.columnsNotFound d.Header columns))
          else some (.ok { Columns := cols, Rows := [vals], CleanerFunc := none })
  else none

/-- `SetRecord`: a bad-index error when `row > len(rows)-1`, a shape error
when the record's length differs from the header's, otherwise replace the
row in place.  A negative `row` passes both checks and panics at
`d.Rows[row]`.  Returns the dataframe after the call plus the error. -/
def Dataframe.SetRecord (d : Dataframe) (row : Int) (record : Record) :
    Option (Dataframe × Option DfError) :=
  if row > (d.Rows.length : Int) - 1 then some (d, some (.badRowIdx row))
  else if record.length ≠ d.Header.length then
    some (d, some (.badRow record.length d.Header.length))
  else if 0 ≤ row then some ({ d with Rows := d.Rows.set row.toNat record }, none)
  else none

/-- The loop of `compareHeaders`: the index of the first name of the first
header that the second header does not contain. -/
def firstMissingIdx (header2 : List String) :
    List String → Nat → Option Nat
  | [], _ => none
  | col :: restCols, idx =>
    if header2.contains col then firstMissingIdx header2 restCols (idx + 1)
    else some idx

/-- `compareHeaders`: `-1` when the lengths differ, otherwise the index of
the first receiver name absent from the candidate header, otherwise `0`.
(The index of a missing first column is `0`, indistinguishable from the
success value.) -/
def compareHeaders (header1 header2 : List String) : Int :=
  if header1.length ≠ header2.length then -1
  else
    match firstMissingIdx header2 header1 0 with
    | some idx => (idx : Int)
    | none => 0

/-- The row loop of `Append`: clean each candidate row with the receiver's
cleaner and append it to the accumulator when the cleaned row is
non-empty. -/
def appendCleanRows (clean : Record → Record) :
    List Record → List Record → List Record
  | [], acc => acc
  | x :: xs, acc =>
    let cleanRec := clean x
    if cleanRec.length ≠ 0 then appendCleanRows clean xs (acc ++ [cleanRec])
    else appendCleanRows clean xs acc

/-- `Append`: compare headers; on a non-zero comparison value return the
receiver plus an incompatible-dataframes error (length flavor for `-1`,
index flavor otherwise); on success run every candidate row through the
receiver's cleaner, dropping rows that clean to empty, and return the
mutated receiver.  The Go method receives both dataframes by pointer and
never writes through the candidate, so the embedding returns the receiver
after the call, the candidate after the call, and the error.  A `nil`
stored cleaner panics at the first cleaned row. -/
def Dataframe.Append (d cand : Dataframe) :
    Option (Dataframe × Dataframe × Option DfError) :=
  let v := compareHeaders d.Header cand.Header
  if v ≠ 0 then
    if v = -1 then
      some (d, cand, some (.incompatibleLength d.Header.length cand.Header.length))
    else some (d, cand, some (.incompatibleAt v.toNat))
  else
    match d.CleanerFunc with
    | none =>
      match cand.Rows with
      | [] => some (d, cand, none)
      | _ :: _ => none
    | some clean =>
      some ({ d with Rows := appendCleanRows clean cand.Rows d.Rows }, cand, none)

/-- The option runner shared by both constructors: apply each option in
order; an error aborts and returns no dataframe (`return nil, err`). -/
def applyOpts : List DataframeOpt → Dataframe → Option (Except DfError Dataframe)
  | [], d => some (.ok d)
  | o :: os, d =>
    match o d with
    | none => none
    | some (.error e) => some (.error e)
    | some (.ok d') => applyOpts os d'

/-- `NewDataframeFromFiles`: start from a dataframe whose cleaner defaults
to the identity, replace it by the caller's cleaner when one is given,
append the file-loading option, reverse the option list so loading runs
first, and run the options. -/
def NewDataframeFromFiles (files : List (List (List String)))
    (cleaner : Option (Record → Record)) (opts : List DataframeOpt) :
    Option (Except DfError Dataframe) :=
  let df : Dataframe := { Columns := [], Rows := [], CleanerFunc := some (fun r => r) }
  let df :=
    match cleaner with
    | some c => { df with CleanerFunc := some c }
    | none => df
  applyOpts ((opts ++ [recordsFromFiles files]).reverse) df

/-- `ByteDefinition`: the raw buffer plus its record and value separators. -/
structure ByteDefinition where
  Data : String
  LineSep : String
  ValSep : String

/-- `NewDataframeFromData`: start from a zero dataframe — whose cleaner is
`nil`, no identity default here — set the caller's cleaner when one is
given, append the buffer-loading option, reverse, and run the options. -/
def NewDataframeFromData (b : ByteDefinition)
    (cleaner : Option (Record → Record)) (opts : List DataframeOpt) :
    Option (Except DfError Dataframe) :=
  let df : Dataframe := { Columns := [], Rows := [], CleanerFunc := none }
  let df :=
    match cleaner with
    | some c => { df with CleanerFunc := some c }
    | none => df
  applyOpts
    ((opts ++ [fun d => some (withRecordsFromData b.Data b.LineSep b.ValSep d)]).reverse) df

/-- The field kinds `reflect.Kind` distinguishes for the hydrator's switch
(plus a catch-all for every other kind). -/
inductive Kind where
  | kString | kFloat64 | kFloat32
  | kInt | kInt8 | kInt16 | kInt32 | kInt64
  | kUint | kUint8 | kUint16 | kUint32 | kUint64
  | kOther
  deriving Repr, DecidableEq

/-- One field of the target record type: its `df` tag as written and its
declared kind. -/
structure FieldSpec where
  tag : String
  kind : Kind
  deriving Repr, DecidableEq

/-- The value a hydrated field holds.  `F` abstracts Go's `float64`. -/
inductive FieldVal (F : Type) where
  | vString (s : String)
  | vFloat (f : F)
  | vInt (i : Int)
  | vUint (u : Nat)
  | vOther
  deriving Repr, DecidableEq

/-- The Go standard library number conversions the hydrator calls:
`strconv.ParseFloat(s, 64)`, `strconv.ParseInt(s, 10, 64)` and
`strconv.ParseUint(s, 10, 64)`, abstracted as external collaborators,
together with the zero value of `float64`. -/
structure Parsers (F : Type) where
  floatZero : F
  parseFloat : String → Except String F
  parseInt : String → Except String Int
  parseUint : String → Except String Nat

/-- The zero value a field of the given kind starts from. -/
def zeroVal {F : Type} (P : Parsers F) : Kind → FieldVal F
  | .kString => .vString ""
  | .kFloat64 | .kFloat32 => .vFloat P.floatZero
  | .kInt | .kInt8 | .kInt16 | .kInt32 | .kInt64 => .vInt 0
  | .kUint | .kUint8 | .kUint16 | .kUint32 | .kUint64 => .vUint 0
  | .kOther => .vOther

/-- The column-search loop inside the hydrator: the position of the first
column whose (already lowercase) name equals the lowercased tag. -/
def findColIdx (tag : String) : List Column → Nat → Option Nat
  | [], _ => none
  | c :: cs, k => if c.name == tag then some k else findColIdx tag cs (k + 1)

/-- One iteration of the hydrator's field loop: skip (leaving the field at
its zero value) on an empty or `"-"` tag, on a tag absent from the header,
or on a kind the switch has no case for — the switch covers `String`,
`Float64`, `Float32`, `Int`, `Int16`, `Int32`, `Int64` and `Uint` only, so
`Int8` and all sized unsigned kinds fall through untouched.  For covered
kinds, read the cell at the matched column position (`d.Rows[idx][cid]`
panics when the row is shorter) and coerce it; a parse failure aborts with
that error. -/
def setField {F : Type} (P : Parsers F) (d : Dataframe) (row : Record)
    (fs : FieldSpec) : Option (Except String (FieldVal F)) :=
  let fieldTag := lowerStr fs.tag
  if fieldTag.length = 0 ∨ fieldTag = "-" then some (.ok (zeroVal P fs.kind))
  else if ¬ d.Header.contains fieldTag then some (.ok (zeroVal P fs.kind))
  else
    match findColIdx fieldTag d.Columns 0 with
    | none => some (.ok (zeroVal P fs.kind))
    | some cid =>
      match fs.kind with
      | .kInt8 | .kUint8 | .kUint16 | .kUint32 | .kUint64 | .kOther =>
        some (.ok (zeroVal P fs.kind))
      | .kString =>
        match row.get? cid with
        | none => none
        | some cell => some (.ok (.vString cell))
      | .kFloat64 | .kFloat32 =>
        match row.get? cid with
        | none => none
        | some cell =>
          match P.parseFloat cell with
          | .error e => some (.error e)
          | .ok v => some (.ok (.vFloat v))
      | .kInt | .kInt16 | .kInt32 | .kInt64 =>
        match row.get? cid with
        | none => none
        | some cell =>
          match P.parseInt cell with
          | .error e => some (.error e)
          | .ok v => some (.ok (.vInt v))
      | .kUint =>
        match row.get? cid with
        | none => none
        | some cell =>
          match P.parseUint cell with
          | .error e => some (.error e)
          | .ok v => some (.ok (.vUint v))

/-- The field loop of the hydrator for one row: a parse failure at any field
aborts immediately. -/
def hydrateRow {F : Type} (P : Parsers F) (d : Dataframe) (row : Record) :
    List FieldSpec → Option (Except String (List (FieldVal F)))
  | [] => some (.ok [])
  | fs :: rest =>
    match setField P d row fs with
    | none => none
    | some (.error e) => some (.error e)
    | some (.ok v) =>
      match hydrateRow P d row rest with
      | none => none
      | some (.error e) => some (.error e)
      | some (.ok vs) => some (.ok (v :: vs))

/-- The row loop of the hydrator: a failure at any row aborts immediately,
discarding every row converted so far. -/
def hydrateRows {F : Type} (P : Parsers F) (fields : List FieldSpec)
    (d : Dataframe) : List Record → Option (Except String (List (List (FieldVal F))))
  | [] => some (.ok [])
  | r :: rs =>
    match hydrateRow P d r fields with
    | none => none
    | some (.error e) => some (.error e)
    | some (.ok s) =>
      match hydrateRows P fields d rs with
      | none => none
      | some (.error e) => some (.error e)
      | some (.ok ss) => some (.ok (s :: ss))

/-- `DfRowsAsStructList`: hydrate every row of the dataframe into a typed
record described by `fields`, in row order; the first failure aborts the
whole conversion with no partial result. -/
def DfRowsAsStructList {F : Type} (P : Parsers F) (fields : List FieldSpec)
    (d : Dataframe) : Option (Except String (List (List (FieldVal F)))) :=
  hydrateRows P fields d d.Rows

end Boiler

namespace Boiler

section Helpers

/-- In a `≤`-sorted list every element is at most the last element. -/
theorem sorted_le_getLast :
    ∀ {l : List Int} (hne : l ≠ []), List.Sorted (· ≤ ·) l →
      ∀ x ∈ l, x ≤ l.getLast hne
  | [], hne, _, _, hx => absurd rfl hne
  | [a], _, _, x, hx => by
    simp only [List.mem_singleton] at hx
    simp [hx, List.getLast]
  | a :: b :: t, _, hs, x, hx => by
    rw [List.getLast_cons (List.cons_ne_nil _ _)]
    rcases List.mem_cons.mp hx with rfl | hx'
    · exact (List.sorted_cons.mp hs).1 _ (List.getLast_mem (List.cons_ne_nil _ _))
    · exact sorted_le_getLast (List.cons_ne_nil _ _) (List.sorted_cons.mp hs).2 x hx'

end Helpers

/-- A five-row dataframe used to exercise `Drop`. -/
def df5 : Dataframe :=
  { Columns := [], Rows := [["a"], ["b"], ["c"], ["d"], ["e"]], CleanerFunc := none }

unseal List.merge List.mergeSort in
/-- C1 is false as stated: `Drop {1,3}` on a 5-row dataset deletes the
half-open range `[1, 3)` — the rows at positions 1 and 2 only — leaving 3
rows (`["a"], ["d"], ["e"]`), not the closed range 1..3 leaving 2 rows that
the claim asserts. -/
theorem C1_counterexample :
    (df5.Drop [1, 3]).map (fun d => d.Rows) = some [["a"], ["d"], ["e"]] ∧
    (df5.Drop [1, 3]).map (fun d => d.Rows.length) = some 3 := by
  constructor <;> decide

/-- C1 (amended): for a non-empty index list whose minimum `lo` is
non-negative and whose maximum `hi` is at most the row count, `Drop`
removes exactly the half-open range `lo..hi` (`hi` excluded) from the rows
and then filters out the empty rows; in particular `Drop {1,3}` on a 5-row
dataset removes the 2 rows at positions 1 and 2, leaving 3 rows. -/
theorem C1_amended (d : Dataframe) (is : List Int) (lo hi : Int)
    (hlo : lo ∈ is) (hhi : hi ∈ is)
    (hmin : ∀ x ∈ is, lo ≤ x) (hmax : ∀ x ∈ is, x ≤ hi)
    (h0 : 0 ≤ lo) (hlen : hi ≤ (d.Rows.length : Int)) :
    d.Drop is = some { d with
      Rows := (d.Rows.take lo.toNat ++ d.Rows.drop hi.toNat).filter
        (fun r => !r.isEmpty) } := by
  have hperm : (is.mergeSort).Perm is := List.mergeSort_perm is _
  have hsorted : List.Sorted (· ≤ ·) is.mergeSort := List.sorted_mergeSort' is
  cases hms : is.mergeSort with
  | nil =>
    rw [hms] at hperm
    exact absurd (hperm.symm.mem_iff.mp hlo) (List.not_mem_nil lo)
  | cons a t =>
    rw [hms] at hperm hsorted
    have ha : a = lo := by
      have h1 : a ≤ lo := by
        rcases List.mem_cons.mp (hperm.mem_iff.mpr hlo) with rfl | h
        · exact le_refl _
        · exact (List.sorted_cons.mp hsorted).1 lo h
      have h2 : lo ≤ a := hmin a (hperm.mem_iff.mp (List.mem_cons_self a t))
      exact le_antisymm h1 h2
    subst ha
    have hgl : (a :: t).getLast (List.cons_ne_nil _ _) = hi := by
      have h1 : (a :: t).getLast (List.cons_ne_nil _ _) ≤ hi :=
        hmax _ (hperm.mem_iff.mp (List.getLast_mem _))
      have h2 : hi ≤ (a :: t).getLast (List.cons_ne_nil _ _) :=
        sorted_le_getLast _ hsorted hi (hperm.mem_iff.mpr hhi)
      exact le_antisymm h1 h2
    simp only [Dataframe.Drop, hms, hgl]
    rw [if_pos ⟨h0, le_trans (hmin a hlo) (hmax a hlo), hlen⟩]

unseal List.merge List.mergeSort in
/-- Witness for C1 (amended) at the concrete 5-row dataset with indices
`{1, 3}`. -/
theorem C1_amended_witness :
    df5.Drop [1, 3] = some { df5 with
      Rows := (df5.Rows.take (1 : Int).toNat ++ df5.Rows.drop (3 : Int).toNat).filter
        (fun r => !r.isEmpty) } :=
  C1_amended df5 [1, 3] 1 3 (by decide) (by decide) (by decide) (by decide)
    (by decide) (by decide)


/-- A one-row dataframe used to exercise the panic paths. -/
def dfC2 : Dataframe := { Columns := [], Rows := [["x"]], CleanerFunc := none }

unseal List.merge List.mergeSort in
/-- C2 is false as stated: panics do escape the public API.  On a one-row
dataset, `Get` with row index 1 panics (models as `none`, no error value is
returned), `Drop` with an empty index list panics at `i[0]`, and
`SetRecord` with row index `-1` passes both error checks and panics at
`d.Rows[-1]`. -/
theorem C2_counterexample :
    dfC2.Get 1 [] = none ∧ dfC2.Drop [] = none ∧ dfC2.SetRecord (-1) [] = none :=
  ⟨rfl, rfl, rfl⟩

/-- C2 (amended): the documented error conditions are returned as error
values, but out-of-range and degenerate inputs panic: `SetRecord` never
panics for a non-negative row index and returns a bad-index error for an
index past the last row, `Drop` panics on an empty index list, `Get` panics
on a negative or out-of-range row index and succeeds on an in-range row
when no columns are requested. -/
theorem C2_amended :
    (∀ (d : Dataframe) (row : Int) (r : Record), 0 ≤ row →
      (d.SetRecord row r).isSome) ∧
    (∀ (d : Dataframe) (row : Int) (r : Record), (d.Rows.length : Int) - 1 < row →
      d.SetRecord row r = some (d, some (.badRowIdx row))) ∧
    (∀ d : Dataframe, d.Drop [] = none) ∧
    (∀ (d : Dataframe) (row : Int) (cols : List String),
      row < 0 ∨ (d.Rows.length : Int) ≤ row → d.Get row cols = none) ∧
    (∀ (d : Dataframe) (row : Int), 0 ≤ row → row < (d.Rows.length : Int) →
      (d.Get row []).isSome) := by
  refine ⟨?_, ?_, ?_, ?_, ?_⟩
  · intro d row r h0
    simp only [Dataframe.SetRecord]
    split_ifs with h1 h2 <;> simp_all
  · intro d row r hgt
    simp only [Dataframe.SetRecord]
    rw [if_pos (by omega)]
  · intro d
    have hms : (([] : List Int).mergeSort) = [] := (List.mergeSort_perm [] _).eq_nil
    simp only [Dataframe.Drop, hms]
  · intro d row cols hbad
    simp only [Dataframe.Get]
    rcases hbad with hneg | hge
    · rw [if_neg (by omega)]
    · rw [if_pos (by omega)]
      have : d.Rows.get? row.toNat = none := by
        rw [List.get?_eq_none]
        omega
      rw [this]
  · intro d row h0 hlt
    simp only [Dataframe.Get]
    rw [if_pos h0]
    have hlt' : row.toNat < d.Rows.length := by omega
    rw [List.get?_eq_get hlt']
    simp

/-- Witness for C2 (amended): `SetRecord` with index 5 on a one-row dataset
returns the bad-index error instead of panicking. -/
theorem C2_amended_witness :
    dfC2.SetRecord 5 ["q"] = some (dfC2, some (.badRowIdx 5)) :=
  C2_amended.2.1 dfC2 5 ["q"] (by decide)


/-- Splitting the file list of `recordsFromFilesLoop`: the suffix continues
from the prefix's accumulated state, with the first-file flag cleared
unless the prefix was empty. -/
theorem recordsFromFilesLoop_append (clean : Record → Record)
    (xs ys : List (List (List String))) (b : Bool) (rows : List Record)
    (head : Option (List String)) :
    recordsFromFilesLoop clean (xs ++ ys) b rows head =
      match recordsFromFilesLoop clean xs b rows head with
      | none => none
      | some (.error e) => some (.error e)
      | some (.ok (rows', head')) =>
        recordsFromFilesLoop clean ys (b && xs.isEmpty) rows' head' := by
  induction xs generalizing b rows head with
  | nil => simp [recordsFromFilesLoop]
  | cons f fs ih =>
    simp only [List.cons_append, recordsFromFilesLoop]
    cases processFile clean b f rows head with
    | none => rfl
    | some ex =>
      cases ex with
      | error e => rfl
      | ok st =>
        cases st with
        | mk rows' head' => simp [ih, List.isEmpty_cons]

/-- Leading rows whose first cell is the empty string are skipped by the
header scan. -/
theorem skipHeaderScan_skip_empty (clean : Record → Record)
    (head : Option (List String)) (empties rows : List (List String))
    (h : ∀ x ∈ empties, x.head? = some "") :
    skipHeaderScan clean head (empties ++ rows) = skipHeaderScan clean head rows := by
  induction empties with
  | nil => rfl
  | cons r rs ih =>
    have hr := h r (List.mem_cons_self _ _)
    simp only [List.cons_append, skipHeaderScan, hr]
    rw [if_pos (by simp)]
    exact ih (fun x hx => h x (List.mem_cons_of_mem _ hx))

/-- The first source file, whose first data row carries a `"date"` cell and
so establishes the header. -/
def fA : List (List String) := [["date", "x"], ["1", "2"]]

/-- A cleaner that drops (empties) any row containing a `"skip"` cell and
keeps every other row unchanged. -/
def cleanSkip : Record → Record := fun r => if r.contains "skip" then [] else r

/-- A second file whose header-equivalent row `["skip", "y"]` normalizes to
the empty row under `cleanSkip`. -/
def fBskip : List (List String) := [["skip", "y"], ["1", "2"]]

/-- C3 is false as stated: when the detected header-equivalent row of a
later file normalizes to an empty row, the mismatch check is skipped even
though the normalized row (here `[]`) differs from the established header
`["date", "x"]`, and construction succeeds with a dataset instead of
aborting. -/
theorem C3_counterexample :
    (NewDataframeFromFiles [fA, fBskip] (some cleanSkip) []).map
        (fun ex => ex.map (fun d => d.Rows)) =
      some (.ok [["date", "x"], ["1", "2"], ["1", "2"]]) ∧
    cleanSkip ["skip", "y"] = [] ∧ ([] : List String) ≠ ["date", "x"] :=
  ⟨rfl, rfl, by decide⟩

/-- C3 (amended): during multi-file construction, once earlier files have
established a header `h`, any later file whose detected header-equivalent
row (its first row with a non-empty first cell) normalizes to a non-empty
row `recd` different from `h` aborts the whole construction with a header
mismatch error carrying both headers, and no dataset is returned — for any
trailing files and any further construction options. -/
theorem C3_amended (clean : Record → Record)
    (files1 files2 : List (List (List String)))
    (fileB empties rest : List (List String)) (r : List String) (c0 : String)
    (recd h : List String) (rows0 : List Record) (opts : List DataframeOpt)
    (h1 : recordsFromFilesLoop clean files1 true [] none = some (.ok (rows0, some h)))
    (h2 : fileB = empties ++ r :: rest)
    (h3 : ∀ x ∈ empties, x.head? = some "")
    (h4 : r.head? = some c0)
    (h5 : ¬ c0.length < 1)
    (h6 : recd = if strContains c0 ',' then clean (splitComma c0) else clean r)
    (h7 : recd.length > 0) (h8 : recd ≠ h) :
    NewDataframeFromFiles (files1 ++ fileB :: files2) (some clean) opts =
      some (.error (.headerMismatch h recd)) := by
  have hscan : skipHeaderScan clean (some h) fileB =
      some (.error (.headerMismatch h recd)) := by
    rw [h2, skipHeaderScan_skip_empty clean (some h) empties (r :: rest) h3]
    simp only [skipHeaderScan, h4]
    rw [if_neg h5]
    rw [← h6]
    rw [if_pos ⟨h7, h8⟩]
  have hne : files1.isEmpty = false := by
    cases files1 with
    | nil => simp [recordsFromFilesLoop] at h1
    | cons f fs => rfl
  have hloop : recordsFromFilesLoop clean (files1 ++ fileB :: files2) true [] none =
      some (.error (.headerMismatch h recd)) := by
    rw [recordsFromFilesLoop_append, h1]
    simp only [hne, Bool.and_false, recordsFromFilesLoop, processFile,
      Bool.false_eq_true, if_false, hscan]
  simp only [NewDataframeFromFiles, List.reverse_append, List.reverse_cons,
    List.reverse_nil, List.nil_append, List.singleton_append, applyOpts,
    recordsFromFiles, hloop]

/-- A second file whose header-equivalent row `["oops", "y"]` mismatches the
established header. -/
def fBoops : List (List String) := [["oops", "y"]]

/-- An identity cleaner. -/
def idClean : Record → Record := fun r => r

/-- Witness for C3 (amended) at a concrete two-file construction whose
second file opens with the mismatching header row `["oops", "y"]`. -/
theorem C3_amended_witness :
    NewDataframeFromFiles [fA, fBoops] (some idClean) [] =
      some (.error (.headerMismatch ["date", "x"] ["oops", "y"])) :=
  C3_amended idClean [fA] [] fBoops [] [] ["oops", "y"] "oops" ["oops", "y"]
    ["date", "x"] [["date", "x"], ["1", "2"]] [] rfl rfl (by intro x hx; cases hx)
    rfl (by decide) rfl (by decide) (by decide)


/-- The candidate-row loop of `Append` appends, after the accumulator, the
cleaned rows that are non-empty. -/
theorem appendCleanRows_eq (clean : Record → Record) (xs acc : List Record) :
    appendCleanRows clean xs acc =
      acc ++ (xs.map clean).filter (fun r => !r.isEmpty) := by
  induction xs generalizing acc with
  | nil => simp [appendCleanRows]
  | cons x xs ih =>
    simp only [appendCleanRows, List.map_cons, List.filter_cons]
    cases hcx : clean x with
    | nil => simpa using ih acc
    | cons y ys => simpa using ih (acc ++ [y :: ys])

/-- Host dataframe whose first column name is absent from the candidate. -/
def dCA : Dataframe :=
  { Columns := [⟨"x", 0⟩, ⟨"b", 1⟩], Rows := [["1", "2"]], CleanerFunc := some idClean }

/-- Candidate dataframe lacking the host's first column `"x"`. -/
def dCB : Dataframe :=
  { Columns := [⟨"a", 0⟩, ⟨"b", 1⟩], Rows := [["3", "4"]], CleanerFunc := none }

/-- C4 is false as stated: when the first missing receiver column sits at
index 0, `compareHeaders` returns 0 — the success value — so `Append`
detects nothing and appends the candidate's rows instead of returning the
error naming index 0 that the claim requires.  Here the receiver's header
is `["x", "b"]`, `"x"` is absent from the candidate's `["a", "b"]`, and the
append succeeds. -/
theorem C4_counterexample :
    (dCA.Append dCB).map (fun t => (t.1.Rows, t.2.2)) =
      some ([["1", "2"], ["3", "4"]], none) ∧
    dCA.Header = ["x", "b"] ∧ dCB.Header.contains "x" = false :=
  ⟨rfl, rfl, by decide⟩

/-- C4 (amended): `Append` compares headers by containment with a length
precondition — a headers-of-different-length error when the lengths differ,
an error naming the first receiver column absent from the candidate when
that first missing index is non-zero; when the first missing index is 0 the
mismatch is not detected (the index collides with the success value of the
comparison) and the append proceeds as if compatible; on the success path
every candidate row is passed through the receiver's normalizer, rows that
normalize to empty are silently dropped, and the mutated receiver is
returned. -/
theorem C4_amended (d c : Dataframe) (f : Record → Record) (k : Nat) :
    (d.Header.length ≠ c.Header.length →
      d.Append c = some (d, c,
        some (.incompatibleLength d.Header.length c.Header.length))) ∧
    (d.Header.length = c.Header.length →
      firstMissingIdx c.Header d.Header 0 = some k → k ≠ 0 →
      d.Append c = some (d, c, some (.incompatibleAt k))) ∧
    (d.Header.length = c.Header.length →
      (firstMissingIdx c.Header d.Header 0 = none ∨
        firstMissingIdx c.Header d.Header 0 = some 0) →
      d.CleanerFunc = some f →
      d.Append c = some ({ d with
        Rows := d.Rows ++ (c.Rows.map f).filter (fun r => !r.isEmpty) },
        c, none)) := by
  refine ⟨?_, ?_, ?_⟩
  · intro hlen
    have hv : compareHeaders d.Header c.Header = -1 := by
      unfold compareHeaders
      rw [if_pos hlen]
    simp [Dataframe.Append, hv]
  · intro hlen hfind hk
    have hv : compareHeaders d.Header c.Header = (k : Int) := by
      unfold compareHeaders
      rw [if_neg (by simp [hlen]), hfind]
    have hk' : (k : Int) ≠ 0 := by exact_mod_cast hk
    have hk2 : (k : Int) ≠ -1 := by omega
    simp [Dataframe.Append, hv, hk', hk2]
  · intro hlen hfind hclean
    have hv : compareHeaders d.Header c.Header = 0 := by
      unfold compareHeaders
      rw [if_neg (by simp [hlen])]
      rcases hfind with hf | hf <;> simp [hf]
    simp [Dataframe.Append, hv, hclean, appendCleanRows_eq]

/-- Host dataframe for the C4 witness. -/
def dC4h : Dataframe :=
  { Columns := [⟨"a", 0⟩, ⟨"b", 1⟩], Rows := [], CleanerFunc := some idClean }

/-- Candidate dataframe for the C4 witness: same length, `"b"` renamed. -/
def dC4c : Dataframe :=
  { Columns := [⟨"a", 0⟩, ⟨"c", 1⟩], Rows := [], CleanerFunc := none }

/-- Witness for C4 (amended): a renamed second column yields the
incompatible-datasets error naming index 1. -/
theorem C4_amended_witness :
    dC4h.Append dC4c = some (dC4h, dC4c, some (.incompatibleAt 1)) :=
  (C4_amended dC4h dC4c idClean 1).2.1 (by decide) (by decide) (by decide)

/-- Concrete byte buffer used to exercise the from-data constructor. -/
def bdC5 : ByteDefinition := { Data := "a,b\nc,d", LineSep := "\n", ValSep := "," }

/-- C5 is false as stated: the from-data constructor does not substitute an
identity normalizer for a nil one — the constructed dataset's stored
cleaner is absent (`new(Dataframe)` leaves it nil and only a non-nil caller
cleaner is assigned), unlike the from-files constructor. -/
theorem C5_counterexample :
    (NewDataframeFromData bdC5 none []).map
      (fun ex => ex.map (fun d => d.CleanerFunc.isSome)) = some (.ok false) := rfl

/-- C5 (amended): with a nil cleaner, `NewDataframeFromFiles` stores the
identity function as the dataset's normalizer, but `NewDataframeFromData`
leaves the stored normalizer nil; the from-data construction itself still
behaves as if the identity had been supplied, because `withRecordsFromData`
skips the nil cleaner and ingests every split record unchanged — but later
operations that call the stored normalizer unconditionally (Append) panic
on such a dataset. -/
theorem C5_amended (files : List (List (List String))) (bd : ByteDefinition)
    (d1 d2 : Dataframe)
    (hf : NewDataframeFromFiles files none [] = some (.ok d1))
    (hd : NewDataframeFromData bd none [] = some (.ok d2)) :
    d1.CleanerFunc = some (fun r => r) ∧
    d2.CleanerFunc = none ∧
    d2.Rows = (bd.Data.splitOn bd.LineSep).map (fun r => r.splitOn bd.ValSep) := by
  refine ⟨?_, ?_, ?_⟩
  · simp only [NewDataframeFromFiles, List.nil_append, List.reverse_cons,
      List.reverse_nil, List.nil_append, applyOpts, recordsFromFiles] at hf
    cases hloop : recordsFromFilesLoop (fun r => r) files true [] none with
    | none => rw [hloop] at hf; cases hf
    | some ex =>
      rw [hloop] at hf
      cases ex with
      | error e => cases hf
      | ok st =>
        simp only [applyOpts, Option.some.injEq, Except.ok.injEq] at hf
        rw [← hf]
  · simp only [NewDataframeFromData, List.nil_append, List.reverse_cons,
      List.reverse_nil, List.nil_append, applyOpts, withRecordsFromData,
      Option.some.injEq, Except.ok.injEq] at hd
    rw [← hd]
  · simp only [NewDataframeFromData, List.nil_append, List.reverse_cons,
      List.reverse_nil, List.nil_append, applyOpts, withRecordsFromData,
      Option.some.injEq, Except.ok.injEq] at hd
    rw [← hd]

/-- Witness for C5 (amended) at an empty file list and the concrete byte
buffer. -/
theorem C5_amended_witness :
    ({ Columns := [], Rows := [], CleanerFunc := some (fun r => r) } :
        Dataframe).CleanerFunc = some (fun r => r) ∧
    ({ Columns := [], Rows := [],
        CleanerFunc := none } : Dataframe).CleanerFunc = none ∧
    ({ Columns := [],
        Rows := [] ++ (bdC5.Data.splitOn bdC5.LineSep).map
          (fun r => r.splitOn bdC5.ValSep),
        CleanerFunc := none } : Dataframe).Rows =
      (bdC5.Data.splitOn bdC5.LineSep).map (fun r => r.splitOn bdC5.ValSep) := by
  have h := C5_amended [] bdC5
    { Columns := [], Rows := [], CleanerFunc := some (fun r => r) }
    { Columns := [],
      Rows := [] ++ (bdC5.Data.splitOn bdC5.LineSep).map
        (fun r => r.splitOn bdC5.ValSep),
      CleanerFunc := none } rfl rfl
  exact ⟨h.1, h.2.1, h.2.2⟩


/-- A position returned by the column-search loop is within bounds. -/
theorem findColIdx_bound (tag : String) :
    ∀ (cols : List Column) (k cid : Nat),
      findColIdx tag cols k = some cid → cid < k + cols.length
  | [], k, cid, h => by simp [findColIdx] at h
  | c :: cs, k, cid, h => by
    simp only [findColIdx] at h
    split at h
    · injection h with h
      simp only [List.length_cons]
      omega
    · have := findColIdx_bound tag cs (k + 1) cid h
      simp only [List.length_cons]
      omega

/-- When the row is at least as wide as the column list, the field step
never panics. -/
theorem setField_isSome {F : Type} (P : Parsers F) (d : Dataframe)
    (row : Record) (fs : FieldSpec) (hlen : d.Columns.length ≤ row.length) :
    (setField P d row fs).isSome := by
  simp only [setField]
  split
  · simp
  · split
    · simp
    · cases hcol : findColIdx (lowerStr fs.tag) d.Columns 0 with
      | none => simp
      | some cid =>
        have hcid : cid < d.Columns.length := by
          have := findColIdx_bound (lowerStr fs.tag) d.Columns 0 cid hcol
          omega
        obtain ⟨cell, hcell⟩ : ∃ cell, row.get? cid = some cell :=
          ⟨row.get ⟨cid, lt_of_lt_of_le hcid hlen⟩, List.get?_eq_get _⟩
        cases fs.kind <;>
          simp only [hcell] <;>
          first
            | simp
            | (cases hp : P.parseFloat cell <;> simp [hp])
            | (cases hp : P.parseInt cell <;> simp [hp])
            | (cases hp : P.parseUint cell <;> simp [hp])

/-- When the row is at least as wide as the column list, the field loop
never panics. -/
theorem hydrateRow_isSome {F : Type} (P : Parsers F) (d : Dataframe)
    (row : Record) (hlen : d.Columns.length ≤ row.length) :
    ∀ fields : List FieldSpec, (hydrateRow P d row fields).isSome
  | [] => by simp [hydrateRow]
  | fs :: rest => by
    simp only [hydrateRow]
    have h1 := setField_isSome P d row fs hlen
    cases hsf : setField P d row fs with
    | none => rw [hsf] at h1; simp at h1
    | some ex =>
      cases ex with
      | error e => simp
      | ok v =>
        have h2 := hydrateRow_isSome P d row hlen rest
        cases hr : hydrateRow P d row rest with
        | none => rw [hr] at h2; simp at h2
        | some ex2 =>
          cases ex2 with
          | error e => simp
          | ok vs => simp

/-- A field loop that succeeded had every field step succeed. -/
theorem hydrateRow_ok {F : Type} (P : Parsers F) (d : Dataframe) (row : Record) :
    ∀ (fields : List FieldSpec) (vs : List (FieldVal F)),
      hydrateRow P d row fields = some (.ok vs) →
      ∀ fs ∈ fields, ∃ v, setField P d row fs = some (.ok v)
  | [], _, _, fs, hfs => absurd hfs (List.not_mem_nil fs)
  | f0 :: rest, vs, h, fs, hfs => by
    simp only [hydrateRow] at h
    cases hsf : setField P d row f0 with
    | none => rw [hsf] at h; cases h
    | some ex =>
      cases ex with
      | error e => rw [hsf] at h; simp at h
      | ok v =>
        rw [hsf] at h
        cases hr : hydrateRow P d row rest with
        | none => rw [hr] at h; cases h
        | some ex2 =>
          cases ex2 with
          | error e => rw [hr] at h; simp at h
          | ok vs2 =>
            rcases List.mem_cons.mp hfs with rfl | hmem
            · exact ⟨v, hsf⟩
            · exact hydrateRow_ok P d row rest vs2 hr fs hmem

/-- When every row is at least as wide as the column list, the row loop
never panics. -/
theorem hydrateRows_isSome {F : Type} (P : Parsers F) (fields : List FieldSpec)
    (d : Dataframe) :
    ∀ rows : List Record, (∀ r ∈ rows, d.Columns.length ≤ r.length) →
      (hydrateRows P fields d rows).isSome
  | [], _ => by simp [hydrateRows]
  | r :: rs, hlen => by
    simp only [hydrateRows]
    have h1 := hydrateRow_isSome P d r (hlen r (List.mem_cons_self _ _)) fields
    cases hrow : hydrateRow P d r fields with
    | none => rw [hrow] at h1; simp at h1
    | some ex =>
      cases ex with
      | error e => simp
      | ok s =>
        have h2 := hydrateRows_isSome P fields d rs
          (fun x hx => hlen x (List.mem_cons_of_mem _ hx))
        cases hrs : hydrateRows P fields d rs with
        | none => rw [hrs] at h2; simp at h2
        | some ex2 =>
          cases ex2 with
          | error e => simp
          | ok ss => simp

/-- A row whose field loop cannot succeed prevents the whole row loop from
succeeding. -/
theorem hydrateRows_not_ok {F : Type} (P : Parsers F) (fields : List FieldSpec)
    (d : Dataframe) (row : Record)
    (hbad : ∀ vs : List (FieldVal F), hydrateRow P d row fields ≠ some (.ok vs)) :
    ∀ rows : List Record, row ∈ rows →
      ∀ l, hydrateRows P fields d rows ≠ some (.ok l)
  | [], hmem, _ => absurd hmem (List.not_mem_nil row)
  | r :: rs, hmem, l => by
    intro h
    simp only [hydrateRows] at h
    cases hrow : hydrateRow P d r fields with
    | none => rw [hrow] at h; cases h
    | some ex =>
      cases ex with
      | error e => rw [hrow] at h; simp at h
      | ok s =>
        rw [hrow] at h
        cases hrs : hydrateRows P fields d rs with
        | none => rw [hrs] at h; cases h
        | some ex2 =>
          cases ex2 with
          | error e => rw [hrs] at h; simp at h
          | ok ss =>
            rcases List.mem_cons.mp hmem with rfl | hmem2
            · exact hbad s hrow
            · exact hydrateRows_not_ok P fields d row hbad rs hmem2 ss hrs

/-- Under the binding hypotheses — recognized tag, tag present in the
header, matched column position, cell present — the field step reduces to
the kind dispatch of the hydrator's switch. -/
theorem setField_bound_eq {F : Type} (P : Parsers F) (d : Dataframe)
    (row : Record) (fs : FieldSpec) (cid : Nat) (cell : String)
    (htag1 : ¬ (lowerStr fs.tag).length = 0) (htag2 : ¬ lowerStr fs.tag = "-")
    (hhdr : d.Header.contains (lowerStr fs.tag) = true)
    (hfind : findColIdx (lowerStr fs.tag) d.Columns 0 = some cid)
    (hcell : row.get? cid = some cell) :
    setField P d row fs =
      match fs.kind with
      | .kInt8 | .kUint8 | .kUint16 | .kUint32 | .kUint64 | .kOther =>
        some (.ok (zeroVal P fs.kind))
      | .kString => some (.ok (.vString cell))
      | .kFloat64 | .kFloat32 =>
        match P.parseFloat cell with
        | .error e => some (.error e)
        | .ok v => some (.ok (.vFloat v))
      | .kInt | .kInt16 | .kInt32 | .kInt64 =>
        match P.parseInt cell with
        | .error e => some (.error e)
        | .ok v => some (.ok (.vInt v))
      | .kUint =>
        match P.parseUint cell with
        | .error e => some (.error e)
        | .ok v => some (.ok (.vUint v)) := by
  simp only [setField]
  rw [if_neg (by push_neg; exact ⟨htag1, htag2⟩)]
  rw [if_neg (fun hcon => hcon hhdr)]
  simp only [hfind]
  cases fs.kind <;> simp only [hcell]

/-- Concrete column layout and rows for exercising the hydrator. -/
def dH6 : Dataframe := { Columns := [⟨"a", 0⟩], Rows := [["x"]], CleanerFunc := none }

/-- Base-10 digit value of one character. -/
def digitVal (c : Char) : Option Nat :=
  if 48 ≤ c.toNat ∧ c.toNat ≤ 57 then some (c.toNat - 48) else none

/-- Accumulating base-10 evaluation of a digit string. -/
def digitsValAux : List Char → Nat → Option Nat
  | [], acc => some acc
  | c :: cs, acc =>
    match digitVal c with
    | none => none
    | some dv => digitsValAux cs (acc * 10 + dv)

/-- A simple concrete number conversion (digits only) used to instantiate
the abstract `Parsers` bundle in witnesses. -/
def toyParseNat (s : String) : Except String Nat :=
  if s.data.isEmpty then .error s
  else
    match digitsValAux s.data 0 with
    | none => .error s
    | some v => .ok v

/-- Concrete `Parsers` instance (with `Int` standing in for `float64`). -/
def toyP : Parsers Int :=
  { floatZero := 0
    parseFloat := fun s => (toyParseNat s).map (fun n => (n : Int))
    parseInt := fun s => (toyParseNat s).map (fun n => (n : Int))
    parseUint := toyParseNat }

/-- C6 is false as stated: a cell bound to a `uint16`-kinded tagged field
that fails base-10 parsing does not abort the hydration — the switch has no
`Uint16` case, the cell is never parsed, and the conversion succeeds with
the field left at its zero value. -/
theorem C6_counterexample :
    DfRowsAsStructList toyP [⟨"a", .kUint16⟩] dH6 = some (.ok [[.vUint 0]]) ∧
    toyP.parseUint "x" = .error "x" :=
  ⟨rfl, rfl⟩

/-- C6 (amended): for the kinds the hydrator's switch actually parses —
`float64`, `float32`, `int`, `int16`, `int32`, `int64` and `uint` — if any
row's cell bound to such a tagged field fails parsing, and every row is at
least as wide as the column list, the hydration returns an error and no
results at all. -/
theorem C6_amended {F : Type} (P : Parsers F) (fields : List FieldSpec)
    (d : Dataframe) (row : Record) (fs : FieldSpec) (cid : Nat) (cell : String)
    (hshape : ∀ r ∈ d.Rows, d.Columns.length ≤ r.length)
    (hrow : row ∈ d.Rows) (hfs : fs ∈ fields)
    (htag1 : ¬ (lowerStr fs.tag).length = 0) (htag2 : ¬ lowerStr fs.tag = "-")
    (hhdr : d.Header.contains (lowerStr fs.tag) = true)
    (hfind : findColIdx (lowerStr fs.tag) d.Columns 0 = some cid)
    (hcell : row.get? cid = some cell)
    (hfail :
      ((fs.kind = .kFloat64 ∨ fs.kind = .kFloat32) ∧
        ∃ s, P.parseFloat cell = .error s) ∨
      ((fs.kind = .kInt ∨ fs.kind = .kInt16 ∨ fs.kind = .kInt32 ∨
          fs.kind = .kInt64) ∧ ∃ s, P.parseInt cell = .error s) ∨
      (fs.kind = .kUint ∧ ∃ s, P.parseUint cell = .error s)) :
    ∃ err, DfRowsAsStructList P fields d = some (.error err) := by
  have heq := setField_bound_eq P d row fs cid cell htag1 htag2 hhdr hfind hcell
  have hsf : ∃ s, setField P d row fs = some (.error s) := by
    rcases hfail with ⟨hk, s, hp⟩ | ⟨hk, s, hp⟩ | ⟨hk, s, hp⟩
    · rcases hk with hk | hk <;> rw [hk] at heq <;> rw [hp] at heq <;> exact ⟨s, heq⟩
    · rcases hk with hk | hk | hk | hk <;> rw [hk] at heq <;> rw [hp] at heq <;>
        exact ⟨s, heq⟩
    · rw [hk] at heq; rw [hp] at heq; exact ⟨s, heq⟩
  obtain ⟨s, hsf⟩ := hsf
  have hbad : ∀ vs : List (FieldVal F), hydrateRow P d row fields ≠ some (.ok vs) := by
    intro vs hok
    obtain ⟨v, hv⟩ := hydrateRow_ok P d row fields vs hok fs hfs
    rw [hsf] at hv
    simp at hv
  have hnotok := hydrateRows_not_ok P fields d row hbad d.Rows hrow
  have hsome := hydrateRows_isSome P fields d d.Rows hshape
  cases hres : hydrateRows P fields d d.Rows with
  | none => rw [hres] at hsome; simp at hsome
  | some ex =>
    cases ex with
    | error e => exact ⟨e, by simpa [DfRowsAsStructList] using hres⟩
    | ok l => exact absurd hres (hnotok l)

/-- Witness for C6 (amended): a `uint`-kinded field over the non-numeric
cell `"x"` makes the whole hydration return an error. -/
theorem C6_amended_witness :
    ∃ err, DfRowsAsStructList toyP [⟨"a", .kUint⟩] dH6 = some (.error err) :=
  C6_amended toyP [⟨"a", .kUint⟩] dH6 ["x"] ⟨"a", .kUint⟩ 0 "x"
    (by decide) (by decide) (by decide) (by decide) (by decide) (by decide)
    (by decide) (by decide) (Or.inr (Or.inr ⟨rfl, "x", rfl⟩))

/-- Concrete dataframe whose single cell is the numeral `"7"`. -/
def dH7 : Dataframe := { Columns := [⟨"a", 0⟩], Rows := [["7"]], CleanerFunc := none }

/-- C7 is false as stated: an `int8`-kinded tagged field bound to the cell
`"7"` is not parsed and assigned — the switch has no `Int8` case, so the
field is silently left at its zero value 0 even though the cell parses to
7. -/
theorem C7_counterexample :
    DfRowsAsStructList toyP [⟨"a", .kInt8⟩] dH7 = some (.ok [[.vInt 0]]) ∧
    toyP.parseInt "7" = .ok 7 ∧
    (some (.ok [[.vInt 0]]) : Option (Except String (List (List (FieldVal Int))))) ≠
      some (.ok [[.vInt 7]]) :=
  ⟨rfl, rfl, by simp⟩

/-- C7 (amended): during hydration, for a tagged field whose tag names a
present column, the kinds `int`, `int16`, `int32` and `int64` are parsed
with the base-10 signed-integer conversion and assigned (failing the whole
operation on malformed text), the kind `uint` is parsed with the base-10
unsigned conversion likewise, and the kinds `int8`, `uint8`, `uint16`,
`uint32` and `uint64` are not parsed at all — the field is silently left at
its zero value. -/
theorem C7_amended {F : Type} (P : Parsers F) (d : Dataframe) (row : Record)
    (fs : FieldSpec) (cid : Nat) (cell : String)
    (htag1 : ¬ (lowerStr fs.tag).length = 0) (htag2 : ¬ lowerStr fs.tag = "-")
    (hhdr : d.Header.contains (lowerStr fs.tag) = true)
    (hfind : findColIdx (lowerStr fs.tag) d.Columns 0 = some cid)
    (hcell : row.get? cid = some cell) :
    ((fs.kind = .kInt ∨ fs.kind = .kInt16 ∨ fs.kind = .kInt32 ∨
        fs.kind = .kInt64) →
      setField P d row fs = some ((P.parseInt cell).map FieldVal.vInt)) ∧
    (fs.kind = .kUint →
      setField P d row fs = some ((P.parseUint cell).map FieldVal.vUint)) ∧
    ((fs.kind = .kInt8 ∨ fs.kind = .kUint8 ∨ fs.kind = .kUint16 ∨
        fs.kind = .kUint32 ∨ fs.kind = .kUint64) →
      setField P d row fs = some (.ok (zeroVal P fs.kind))) := by
  have heq := setField_bound_eq P d row fs cid cell htag1 htag2 hhdr hfind hcell
  refine ⟨?_, ?_, ?_⟩
  · intro hk
    rcases hk with hk | hk | hk | hk <;> rw [hk] at heq <;> rw [heq] <;>
      cases hp : P.parseInt cell <;> simp [hp, Except.map]
  · intro hk
    rw [hk] at heq
    rw [heq]
    cases hp : P.parseUint cell <;> simp [hp, Except.map]
  · intro hk
    rcases hk with hk | hk | hk | hk | hk <;> rw [hk] at heq ⊢ <;> rw [heq]

/-- Witness for C7 (amended): an `int16`-kinded field over the cell `"7"`
is parsed and assigned the value 7. -/
theorem C7_amended_witness :
    setField toyP dH7 ["7"] ⟨"a", .kInt16⟩ =
      some ((toyP.parseInt "7").map FieldVal.vInt) :=
  (C7_amended toyP dH7 ["7"] ⟨"a", .kInt16⟩ 0 "7" (by decide) (by decide)
    (by decide) (by decide) (by decide)).1 (Or.inr (Or.inl rfl))


/-- The names of the columns built from an enumerated name list are the
normalized names. -/
theorem enumCols_names (l : List String) :
    ((l.enum.map (fun p => ({ name := normalizeName p.2, idx := p.1 } : Column))).map
      (fun c => c.name)) = l.map normalizeName := by
  rw [List.map_map]
  rw [show ((fun c : Column => c.name) ∘
      (fun p : Nat × String => ({ name := normalizeName p.2, idx := p.1 } : Column))) =
      (normalizeName ∘ Prod.snd) from rfl]
  rw [← List.map_map, List.enum_map_snd]

/-- The ordinals of the columns built from an enumerated name list are the
positions `0, 1, ...`. -/
theorem enumCols_idx (l : List String) :
    ((l.enum.map (fun p => ({ name := normalizeName p.2, idx := p.1 } : Column))).map
      (fun c => c.idx)) = List.range l.length := by
  rw [List.map_map]
  rw [show ((fun c : Column => c.idx) ∘
      (fun p : Nat × String => ({ name := normalizeName p.2, idx := p.1 } : Column))) =
      (Prod.fst : Nat × String → Nat) from rfl]
  rw [List.enum_map_fst]

/-- C8: the two column-finalization modes have different row-mutation side
effects — interpreted finalize sets the header to the normalized
(lower-cased, space-stripped) cells of `rows[0]` and removes exactly that
first row, while provided finalize returns a shape error when the supplied
name list's length differs from the width of `rows[0]` and otherwise sets
the header (normalized) without removing any row. -/
theorem C8 (d : Dataframe) (r0 : Record) (rest : List Record) (hs : List String)
    (hRows : d.Rows = r0 :: rest) (hCols : d.Columns = []) :
    (∃ d', WithInterpretedColumns d = some (.ok d') ∧
      d'.Header = r0.map normalizeName ∧ d'.Rows = rest ∧
      d'.Rows.length + 1 = d.Rows.length) ∧
    (hs.length ≠ r0.length →
      WithProvidedColumns hs d = some (.error (.headerInterpret hs r0))) ∧
    (hs.length = r0.length →
      ∃ d', WithProvidedColumns hs d = some (.ok d') ∧
        d'.Header = hs.map normalizeName ∧ d'.Rows = d.Rows) := by
  refine ⟨?_, ?_, ?_⟩
  · refine ⟨{ d with
      Columns := d.Columns ++ r0.enum.map
        (fun p => { name := normalizeName p.2, idx := p.1 }),
      Rows := rest }, ?_, ?_, ?_, ?_⟩
    · simp only [WithInterpretedColumns, hRows]
    · simp only [Dataframe.Header, hCols, List.nil_append]
      exact enumCols_names r0
    · rfl
    · simp [hRows]
  · intro hne
    simp only [WithProvidedColumns, hRows, List.head?_cons]
    rw [if_pos hne]
  · intro heq
    refine ⟨{ d with
      Columns := d.Columns ++ hs.enum.map
        (fun p => { name := normalizeName p.2, idx := p.1 }) }, ?_, ?_, ?_⟩
    · simp only [WithProvidedColumns, hRows, List.head?_cons]
      rw [if_neg (by omega)]
    · simp only [Dataframe.Header, hCols, List.nil_append]
      exact enumCols_names hs
    · rfl

/-- A two-row dataframe with no columns yet, for exercising the finalize
options. -/
def d8 : Dataframe :=
  { Columns := [], Rows := [["A b", "C"], ["1", "2"]], CleanerFunc := none }

/-- Witness for C8: provided finalize with a length-matching list sets the
normalized header and keeps both rows. -/
theorem C8_witness :
    ∃ d', WithProvidedColumns ["p", "Q"] d8 = some (.ok d') ∧
      d'.Header = ["p", "Q"].map normalizeName ∧ d'.Rows = d8.Rows :=
  (C8 d8 ["A b", "C"] [["1", "2"]] ["p", "Q"] rfl rfl).2.2 (by decide)

/-- The projected column list of `Get` is a sublist of the dataframe's
column list (each kept column unchanged, ordinal included). -/
theorem projectCols_sublist (r : Record) (req : List String) :
    ∀ (cols : List Column) (vals : List String) (cols' : List Column),
      projectCols r req cols = some (vals, cols') → cols'.Sublist cols
  | [], vals, cols', h => by
    simp only [projectCols, Option.some.injEq, Prod.mk.injEq] at h
    rw [← h.2]
  | c :: cs, vals, cols', h => by
    simp only [projectCols] at h
    split at h
    · cases hg : r.get? c.idx with
      | none => rw [hg] at h; cases h
      | some cell =>
        rw [hg] at h
        cases hp : projectCols r req cs with
        | none => rw [hp] at h; cases h
        | some pr =>
          cases pr with
          | mk vs cls =>
            rw [hp] at h
            simp only [Option.some.injEq, Prod.mk.injEq] at h
            rw [← h.2]
            exact List.Sublist.cons₂ c (projectCols_sublist r req cs vs cls hp)
    · exact List.Sublist.cons c (projectCols_sublist r req cs vals cols' h)

/-- Any successful `Get` returns a column list that is a sublist of the
source's. -/
theorem Get_columns_sublist (d : Dataframe) (row : Int) (cols : List String)
    (d' : Dataframe) (h : d.Get row cols = some (.ok d')) :
    d'.Columns.Sublist d.Columns := by
  simp only [Dataframe.Get] at h
  split at h
  · split at h
    · cases h
    · split at h
      · simp only [Option.some.injEq, Except.ok.injEq] at h
        rw [← h]
      · split at h
        · cases h
        · split at h
          · simp at h
          · simp only [Option.some.injEq, Except.ok.injEq] at h
            rw [← h]
            exact projectCols_sublist _ _ _ _ _ (by assumption)
  · cases h

/-- Column layout whose ordinals are the source positions, for the C9
counterexample. -/
def dC9 : Dataframe :=
  { Columns := [⟨"a", 0⟩, ⟨"b", 1⟩], Rows := [["u", "v"]], CleanerFunc := none }

/-- C9 is false as stated: `Get` with column projection keeps the matched
columns unchanged, ordinals included, so projecting column `"b"` yields a
one-column dataset whose single column (position 0) still carries ordinal
1. -/
theorem C9_counterexample :
    (dC9.Get 0 ["b"]).map (fun ex => ex.map (fun d => d.Columns)) =
      some (.ok [⟨"b", 1⟩]) ∧ (1 : Nat) ≠ 0 :=
  ⟨rfl, by decide⟩

/-- C9 (amended): ordinals equal the zero-based column position for
datasets produced by the finalize options (on a dataset without columns)
and are preserved verbatim by `Get` — without projection the column list is
shared unchanged, with projection the result is a sublist of the source's
columns (so ordinals stay unique/strictly increasing whenever the source's
are, but equal the new positions only for prefix projections) — and a
successful `Append` leaves the receiver's columns unchanged. -/
theorem C9_amended :
    (∀ (d : Dataframe) (r0 : Record) (rest : List Record) (d' : Dataframe),
      d.Columns = [] → d.Rows = r0 :: rest →
      WithInterpretedColumns d = some (.ok d') →
      d'.Columns.map (fun c => c.idx) = List.range d'.Columns.length) ∧
    (∀ (d : Dataframe) (hs : List String) (d' : Dataframe),
      d.Columns = [] → WithProvidedColumns hs d = some (.ok d') →
      d'.Columns.map (fun c => c.idx) = List.range d'.Columns.length) ∧
    (∀ (d : Dataframe) (row : Int) (d' : Dataframe),
      d.Get row [] = some (.ok d') → d'.Columns = d.Columns) ∧
    (∀ (d : Dataframe) (row : Int) (cols : List String) (d' : Dataframe),
      d.Get row cols = some (.ok d') → d'.Columns.Sublist d.Columns) ∧
    (∀ (d : Dataframe) (row : Int) (cols : List String) (d' : Dataframe),
      d.Columns.Pairwise (fun a b => a.idx < b.idx) →
      d.Get row cols = some (.ok d') →
      d'.Columns.Pairwise (fun a b => a.idx < b.idx)) ∧
    (∀ (d c d' c' : Dataframe) (e : Option DfError),
      d.Append c = some (d', c', e) → d'.Columns = d.Columns) := by
  refine ⟨?_, ?_, ?_, ?_, ?_, ?_⟩
  · intro d r0 rest d' hCols hRows h
    simp only [WithInterpretedColumns, hRows, Option.some.injEq,
      Except.ok.injEq] at h
    rw [← h]
    simp only [hCols, List.nil_append]
    rw [enumCols_idx]
    simp
  · intro d hs d' hCols h
    simp only [WithProvidedColumns] at h
    split at h
    · cases h
    · split at h
      · simp at h
      · simp only [Option.some.injEq, Except.ok.injEq] at h
        rw [← h]
        simp only [hCols, List.nil_append]
        rw [enumCols_idx]
        simp
  · intro d row d' h
    simp only [Dataframe.Get] at h
    split at h
    · split at h
      · cases h
      · simp only [List.isEmpty_nil, if_true, Option.some.injEq,
          Except.ok.injEq] at h
        rw [← h]
    · cases h
  · intro d row cols d' h
    exact Get_columns_sublist d row cols d' h
  · intro d row cols d' hpw h
    exact hpw.sublist (Get_columns_sublist d row cols d' h)
  · intro d c d' c' e h
    simp only [Dataframe.Append] at h
    split at h
    · split at h <;>
        (simp only [Option.some.injEq, Prod.mk.injEq] at h; rw [← h.1])
    · cases hcf : d.CleanerFunc with
      | none =>
        rw [hcf] at h
        cases hcr : c.Rows with
        | nil =>
          rw [hcr] at h
          simp only [Option.some.injEq, Prod.mk.injEq] at h
          rw [← h.1]
        | cons x xs => rw [hcr] at h; cases h
      | some clean =>
        rw [hcf] at h
        simp only [Option.some.injEq, Prod.mk.injEq] at h
        rw [← h.1]

/-- Witness for C9 (amended): `Get` without projection shares the source's
column list unchanged. -/
theorem C9_amended_witness :
    ({ Columns := dC9.Columns, Rows := [["u", "v"]], CleanerFunc := none } :
      Dataframe).Columns = dC9.Columns :=
  C9_amended.2.2.1 dC9 0
    { Columns := dC9.Columns, Rows := [["u", "v"]], CleanerFunc := none } rfl

/-- C10: `SetRecord` and `Append` are atomic on error — whenever `SetRecord`
returns an error value the receiver is returned unchanged, and whenever
`Append` returns an incompatible-datasets error both the receiver and the
candidate are returned unchanged. -/
theorem C10 :
    (∀ (d : Dataframe) (row : Int) (r : Record) (d' : Dataframe) (e : DfError),
      d.SetRecord row r = some (d', some e) → d' = d) ∧
    (∀ (d c d' c' : Dataframe) (e : DfError),
      d.Append c = some (d', c', some e) → d' = d ∧ c' = c) := by
  constructor
  · intro d row r d' e h
    simp only [Dataframe.SetRecord] at h
    split at h
    · simp only [Option.some.injEq, Prod.mk.injEq] at h
      exact h.1.symm
    · split at h
      · simp only [Option.some.injEq, Prod.mk.injEq] at h
        exact h.1.symm
      · split at h
        · simp at h
        · cases h
  · intro d c d' c' e h
    simp only [Dataframe.Append] at h
    split at h
    · split at h <;>
        (simp only [Option.some.injEq, Prod.mk.injEq] at h;
         exact ⟨h.1.symm, h.2.1.symm⟩)
    · cases hcf : d.CleanerFunc with
      | none =>
        rw [hcf] at h
        cases hcr : c.Rows with
        | nil =>
          rw [hcr] at h
          simp at h
        | cons x xs => rw [hcr] at h; cases h
      | some clean =>
        rw [hcf] at h
        simp at h

/-- Witness for C10 at a one-row receiver: `SetRecord` with the
out-of-range index 5 errors and the receiver comes back unchanged. -/
theorem C10_witness : dfC2 = dfC2 :=
  C10.1 dfC2 5 ["z"] dfC2 (.badRowIdx 5) rfl

end Boiler
